import Mathlib

/-!
Verification development for `tiddlywebplugins.etagcache`
(`src/tiddlywebplugins/etagcache.py`), a TiddlyWeb middleware that keeps a
cache of `uri:etag` pairs: the request half raises 304 on an
`If-None-Match` hit, the response half stores the outgoing ETag, and store
hooks invalidate entries by regenerating namespace tokens.

The Python source is shallowly embedded below.  External collaborators
(the memcached client `_mc`, `tiddlyweb.util.sha`, `uuid.uuid4`,
`tiddlyweb.web.util.get_serialize_type`) are modelled as explicit
parameters or state, as documented at each definition.
-/

namespace Etag

/-! ## The external key-value cache backend

`_mc` (a memcached client) is external.  We model it as a store from keys
to optional string values together with a log of the get/set operations
performed, so that "no cache operation occurs" is expressible.  The source
applies `sha(...).hexdigest()` (an external, deterministic one-way hash
from `tiddlyweb.util`) to every etag-cache key before use; since the hash
is applied uniformly at every get and set, lookups factor through equality
of the pre-hash key string, which is what the model uses as the key. -/

inductive CacheOp where
  | get (key : String)
  | set (key value : String)
  deriving Repr, DecidableEq

structure Cache where
  store : String → Option String
  ops : List CacheOp

/-- Model of `_mc.get(key)`. -/
def Cache.doGet (c : Cache) (key : String) : Option String × Cache :=
  (c.store key, ⟨c.store, c.ops ++ [CacheOp.get key]⟩)

/-- Model of `_mc.set(key, value)`. -/
def Cache.doSet (c : Cache) (key value : String) : Cache :=
  ⟨fun q => if q = key then some value else c.store q, c.ops ++ [CacheOp.set key value]⟩

/-- An empty backend, used as a concrete starting state. -/
def emptyCache : Cache := ⟨fun _ => none, []⟩

/-! ## Python string primitives used by the source -/

/-- Python's `uri.split('/')` (split on every `'/'`, keeping empty parts;
`''.split('/') == ['']`). -/
def splitSlash : List Char → List (List Char)
  | [] => [[]]
  | c :: cs =>
    let r := splitSlash cs
    if c = '/' then [] :: r else (c :: r.headD []) :: r.tail

/-- Python's substring test `needle in hay`. -/
def hasInfix (needle hay : String) : Bool :=
  decide (needle.data <:+: hay.data)

/-- Characters `urllib.quote` leaves unescaped: Python 2's `always_safe`
(letters, digits, `_.-`) plus the default `safe='/'`. -/
def quote_safe (c : Char) : Bool :=
  (decide ('A' ≤ c) && decide (c ≤ 'Z')) ||
  (decide ('a' ≤ c) && decide (c ≤ 'z')) ||
  (decide ('0' ≤ c) && decide (c ≤ '9')) ||
  decide (c = '_') || decide (c = '.') || decide (c = '-') || decide (c = '/')

def hexDigit (n : Nat) : Char :=
  if n < 10 then Char.ofNat ('0'.toNat + n) else Char.ofNat ('A'.toNat + (n - 10))

/-- Encoding `'%%%02X' % ord(c)` for an unsafe character, else the character itself. -/
def quoteChar (c : Char) : List Char :=
  if quote_safe c then [c] else ['%', hexDigit (c.toNat / 16 % 16), hexDigit (c.toNat % 16)]

/-- Model of `urllib.quote(s)` with the default `safe='/'`. -/
def pyQuote (s : String) : String :=
  ⟨s.data.foldr (fun c acc => quoteChar c ++ acc) []⟩

/-- Python's `str.lower()` (header names here are ASCII). -/
def pyLower (s : String) : String := ⟨s.data.map Char.toLower⟩

/-- The prefix of `l` before the first `';'`: Python's
`s.split(';', 1)[0]`. -/
def takeUntilSemi : List Char → List Char
  | [] => []
  | c :: cs => if c = ';' then [] else c :: takeUntilSemi cs

/-- Python's whitespace set for `str.strip()`. -/
def pySpace (c : Char) : Bool :=
  c = ' ' || c = '\t' || c = '\n' || c = '\x0d' || c = '\x0b' || c = '\x0c'

/-- Python's `str.strip()`. -/
def pyStrip (l : List Char) : List Char :=
  ((l.dropWhile pySpace).reverse.dropWhile pySpace).reverse

/-! ## The WSGI environ and configuration consumed by the middleware

Only the entries the source actually reads are modelled.
`negotiated_mime` is the outcome of the external collaborator call
`get_serialize_type(environ)[1]`: `some m` when it yields a string,
`none` for every failure mode the source catches (`HTTP415` raised,
`TypeError` from subscripting `None`, `AttributeError` from `.split` on a
non-string).  `serializers`/`default_serializer` model
`environ['tiddlyweb.config']`; a missing `default_serializer` entry would
raise an uncaught `KeyError` in the source, so theorems about the fallback
assume the entry is present.  `fresh_uuid` models the external
`str(uuid.uuid4())` draw consumed if this request has to create a
namespace token (`uuid4` never yields an empty string). -/

structure Env where
  request_method : String
  script_name : String
  path_info : String
  query_string : String
  /-- Value of `environ.get('HTTP_IF_NONE_MATCH', None)`. -/
  if_none_match : Option String
  /-- Value of `environ['tiddlyweb.usersign']['name']`. -/
  username : String
  /-- Value of `environ.get('HTTP_HOST', '')`. -/
  http_host : String
  /-- Value of `environ['tiddlyweb.config'].get('server_prefix', '')`. -/
  server_prefix : String
  negotiated_mime : Option String
  default_serializer : String
  /-- Mapping serializer name ↦ `(module, mime_type)` as in tiddlyweb config. -/
  serializers : List (String × String × String)
  fresh_uuid : String

/-- A WSGI response as seen by the middleware: the `(status, headers)`
pair handed to `start_response` plus the body iterable. -/
structure Response where
  status : String
  headers : List (String × String)
  body : String
  deriving Repr, DecidableEq

/-! ## The middleware, embedded from `etagcache.py` -/

def ANY_NAMESPACE : String := "any_namespace"
def BAGS_NAMESPACE : String := "bags_namespace"
def RECIPES_NAMESPACE : String := "recipes_namespace"

/-- Model of `_container_namespace_key(container, entity_name, tiddler_name)`:
`'%s:%s:%s_namespace' % (container, entity_name, tiddler_name)`. -/
def container_namespace_key (container entity_name tiddler_name : String) : String :=
  container ++ ":" ++ entity_name ++ ":" ++ tiddler_name ++ "_namespace"

/-- Model of `_cacheable(environ, uri)`: "attempt to cache anything". -/
def cacheable (_env : Env) (_uri : String) : Bool := true

/-- Model of `_get_uri(environ)`: `urllib.quote(SCRIPT_NAME + PATH_INFO)` plus the
raw query string when non-empty (Python truthiness of `QUERY_STRING`). -/
def get_uri (env : Env) : String :=
  let uri := pyQuote (env.script_name ++ env.path_info)
  if env.query_string ≠ "" then uri ++ "?" ++ env.query_string else uri

/-- The key-selection part of `EtagCache._get_namespace`: which namespace
key the current uri is classified under.  `uri_parts.getD _ []` models the
Python indexing `uri_parts[1]`/`uri_parts[2]`, which cannot fail on any
uri that passes the corresponding substring test without a server prefix
(an out-of-range index would raise `IndexError` in the source). -/
def namespace_key (env : Env) (uri : String) : String :=
  let index := if env.server_prefix ≠ "" then 1 else 0
  let uri_parts := (splitSlash uri.data).drop index
  if hasInfix "/bags/" uri then
    container_namespace_key ⟨uri_parts.getD 1 []⟩ ⟨uri_parts.getD 2 []⟩ ""
  else if hasInfix "/recipes/" uri then
    if hasInfix "/tiddlers" uri then ANY_NAMESPACE
    else container_namespace_key ⟨uri_parts.getD 1 []⟩ ⟨uri_parts.getD 2 []⟩ ""
  else if hasInfix "/bags" uri then BAGS_NAMESPACE
  else if hasInfix "/recipes" uri then RECIPES_NAMESPACE
  else ANY_NAMESPACE

/-- Model of `EtagCache._get_namespace`: look the namespace token up; on a falsy
value (`None` or `''`), generate a fresh token, persist it and return it.
(The source calls `key.encode('utf8')` on the set path; for the ASCII keys
involved this is the identity and is not modelled separately.) -/
def get_namespace (env : Env) (uri : String) (c : Cache) : String × Cache :=
  let key := namespace_key env uri
  let (ns?, c1) := c.doGet key
  let namespace0 := ns?.getD ""
  if namespace0 = "" then (env.fresh_uuid, c1.doSet key env.fresh_uuid)
  else (namespace0, c1)

/-- The mime-type resolution inside `EtagCache._make_key`:
`get_serialize_type(environ)[1]` followed by `.split(';', 1)[0].strip()`,
with the `except (TypeError, AttributeError, HTTP415)` fallback to
`config['serializers'][config['default_serializer']][1]`. -/
def resolve_mime (env : Env) : String :=
  match env.negotiated_mime with
  | some m => ⟨pyStrip (takeUntilSemi m.data)⟩
  | none => ((env.serializers.lookup env.default_serializer).getD ("", "")).2

/-- The `'%s:%s:%s:%s:%s'` join in `EtagCache._make_key`.  The source
feeds this string to the external hash `sha(...).hexdigest()`; see the
`Cache` docstring for why the model keys the backend by this pre-hash
string. -/
def key_string (nspace mime_type username host uri : String) : String :=
  nspace ++ ":" ++ mime_type ++ ":" ++ username ++ ":" ++ host ++ ":" ++ uri

/-- Model of `EtagCache._make_key(environ, uri)`. -/
def make_key (env : Env) (uri : String) (c : Cache) : String × Cache :=
  let mime_type := resolve_mime env
  let (nspace, c1) := get_namespace env uri c
  (key_string nspace mime_type env.username env.http_host uri, c1)

/-- Model of `EtagCache._check_cache(environ, start_response)`.  The result's first
component is `some match` when the source raises `HTTP304(match)` (the
short-circuit), `none` when control falls through to the application.
The `≠ ""` tests are the Python truthiness checks `if match:` and
`cached_etag and cached_etag == match`. -/
def check_cache (env : Env) (c : Cache) : Option String × Cache :=
  if env.request_method = "GET" then
    let uri := get_uri env
    if cacheable env uri then
      match env.if_none_match with
      | some m =>
        if m ≠ "" then
          let (key, c1) := make_key env uri c
          let (cached?, c2) := c1.doGet key
          match cached? with
          | some cached_etag =>
            if cached_etag ≠ "" ∧ cached_etag = m then (some m, c2) else (none, c2)
          | none => (none, c2)
        else (none, c)
      | none => (none, c)
    else (none, c)
  else (none, c)

/-- Model of `EtagCache._cache(environ, value)`: store the etag header value under
the derived key. -/
def cache_put (env : Env) (value : String) (c : Cache) : Cache :=
  let uri := get_uri env
  let (key, c1) := make_key env uri c
  c1.doSet key value

/-- Model of `EtagCache._check_response(environ)`.  `status` and `headers` are the
values the instance fields `self.status` / `self.headers` hold when this
runs; the source records `status` but never consults it. -/
def check_response (env : Env) (_status : String) (headers : List (String × String))
    (c : Cache) : Cache :=
  if env.request_method = "GET" then
    let uri := get_uri env
    if cacheable env uri then
      headers.foldl (fun acc h => if pyLower h.1 = "etag" then cache_put env h.2 acc else acc) c
    else c
  else c

/-- The outcome of one request through the middleware: either the
downstream application's response is passed along, or the request was
short-circuited by raising `HTTP304(etag)`. -/
inductive Outcome where
  | response (r : Response)
  | notModified (etag : String)
  deriving Repr, DecidableEq

/-- Model of `EtagCache.__call__` for a single request.  `mcAvail` is the Python
truthiness of `environ['tiddlyweb.store'].storage._mc` (with the
`AttributeError` fallback to `None`): when falsy, the middleware is a pure
pass-through.  `app` is the wrapped downstream application. -/
def etag_call (app : Env → Response) (env : Env) (mcAvail : Bool) (c : Cache) :
    Outcome × Cache :=
  if mcAvail then
    let (hit, c1) := check_cache env c
    match hit with
    | some m => (Outcome.notModified m, c1)
    | none =>
      let r := app env
      let c2 := check_response env r.status r.headers c1
      (Outcome.response r, c2)
  else (Outcome.response (app env), c)

/-! ## The store hooks (`tiddler_change_hook`, `bag_change_hook`,
`recipe_change_hook`)

Each hook draws fresh `uuid4` values (modelled as explicit `fresh_*`
parameters) and overwrites the affected namespace tokens, in the order the
source performs the sets. -/

def tiddler_change_hook (c : Cache) (bag_name : String) (fresh_any fresh_bag : String) :
    Cache :=
  let any_key := ANY_NAMESPACE
  let bag_key := container_namespace_key "bags" bag_name ""
  (c.doSet any_key fresh_any).doSet bag_key fresh_bag

def bag_change_hook (c : Cache) (bag_name : String)
    (fresh_any fresh_bag fresh_bags : String) : Cache :=
  let any_key := ANY_NAMESPACE
  let bags_key := BAGS_NAMESPACE
  let bag_key := container_namespace_key "bags" bag_name ""
  ((c.doSet any_key fresh_any).doSet bag_key fresh_bag).doSet bags_key fresh_bags

def recipe_change_hook (c : Cache) (recipe_name : String)
    (fresh_any fresh_recipe fresh_recipes : String) : Cache :=
  let any_key := ANY_NAMESPACE
  let recipes_key := RECIPES_NAMESPACE
  let recipe_key := container_namespace_key "recipes" recipe_name ""
  ((c.doSet any_key fresh_any).doSet recipe_key fresh_recipe).doSet recipes_key fresh_recipes

/-! ## The shared-instance capture state

`replacement_start_response` in `EtagCache.__call__` records the response
status and headers as `self.status` / `self.headers` — attributes of the
single long-lived `EtagCache` instance that all in-flight requests share.
`EtagCacheSelf` is that shared field pair, and
`run2_interleaved` executes two requests against it under the interleaving
in which request 2's `start_response` fires between request 1's
`start_response` and request 1's response check (both requests then read
the same shared fields, exactly as the attribute reads in
`_check_response` do). -/

structure EtagCacheSelf where
  status : String
  headers : List (String × String)

/-- Model of `replacement_start_response(status, headers)`: `self.status = status;
self.headers = headers` — an overwrite of the shared fields. -/
def replacement_start_response (_self : EtagCacheSelf) (status : String)
    (headers : List (String × String)) : EtagCacheSelf :=
  ⟨status, headers⟩

/-- Two concurrent GETs through one `EtagCache` instance, scheduled as:
request 1 cache check; request 2 cache check; request 1 downstream calls
`replacement_start_response`; request 2 downstream calls
`replacement_start_response`; request 1 runs `_check_response`; request 2
runs `_check_response`.  Returns the final backend state. -/
def run2_interleaved (env1 env2 : Env) (r1 r2 : Response) (c : Cache) : Cache :=
  let (_, c1) := check_cache env1 c
  let (_, c2) := check_cache env2 c1
  let self0 : EtagCacheSelf := ⟨"", []⟩
  let self1 := replacement_start_response self0 r1.status r1.headers
  let self2 := replacement_start_response self1 r2.status r2.headers
  let c3 := check_response env1 self2.status self2.headers c2
  check_response env2 self2.status self2.headers c3

/-! ## Structured request paths for the namespace-scope claims

`UriShape` enumerates the path shapes named by the spec's scope rules,
with `render` producing the concrete TiddlyWeb uri of each shape. -/

inductive UriShape where
  /-- Path `/bags/B/tiddlers/T`: an item inside the named simple container B. -/
  | itemInSimple (bag tiddler : String)
  /-- Path `/bags/B/tiddlers`: the named simple container's item listing. -/
  | simpleListing (bag : String)
  /-- Path `/bags/B`: a specific named simple container. -/
  | simpleContainer (bag : String)
  /-- Path `/recipes/R/tiddlers`: the named composite container's item listing. -/
  | compositeListing (recipe : String)
  /-- Path `/recipes/R`: a specific named composite container. -/
  | compositeContainer (recipe : String)
  /-- Path `/bags`: the bare listing of all simple containers. -/
  | allSimple
  /-- Path `/recipes`: the bare listing of all composite containers. -/
  | allComposite
  /-- Path `/search?q=Q`: an uri handled by no specific rule. -/
  | search (q : String)

def UriShape.render : UriShape → String
  | .itemInSimple b t => "/bags/" ++ b ++ "/tiddlers/" ++ t
  | .simpleListing b => "/bags/" ++ b ++ "/tiddlers"
  | .simpleContainer b => "/bags/" ++ b
  | .compositeListing r => "/recipes/" ++ r ++ "/tiddlers"
  | .compositeContainer r => "/recipes/" ++ r
  | .allSimple => "/bags"
  | .allComposite => "/recipes"
  | .search q => "/search?q=" ++ q

/-- Modelled from the spec: the namespace key assigned by the claim's six
scope rules, taken in the claim's priority order — item inside a named
simple container ↦ that container's instance scope; a composite
container's item listing ↦ the any scope; a specific composite container
↦ its instance scope; the bare simple-container listing ↦ the
simple-container class scope; the bare composite-container listing ↦ the
composite-container class scope; every other path (including a specific
simple container and a simple container's item listing, which none of the
claim's rules name) ↦ the any scope. -/
def claim_scope_key : UriShape → String
  | .itemInSimple b _ => container_namespace_key "bags" b ""
  | .compositeListing _ => ANY_NAMESPACE
  | .compositeContainer r => container_namespace_key "recipes" r ""
  | .allSimple => BAGS_NAMESPACE
  | .allComposite => RECIPES_NAMESPACE
  | .simpleListing _ => ANY_NAMESPACE
  | .simpleContainer _ => ANY_NAMESPACE
  | .search _ => ANY_NAMESPACE

/-- The claim's rule list amended as the code forces: every path under a
named simple container — the container itself and its item listing, not
just items inside it — also maps to that container's instance scope.  The
remaining rules are unchanged. -/
def amended_scope_key : UriShape → String
  | .itemInSimple b _ => container_namespace_key "bags" b ""
  | .simpleListing b => container_namespace_key "bags" b ""
  | .simpleContainer b => container_namespace_key "bags" b ""
  | .compositeListing _ => ANY_NAMESPACE
  | .compositeContainer r => container_namespace_key "recipes" r ""
  | .allSimple => BAGS_NAMESPACE
  | .allComposite => RECIPES_NAMESPACE
  | .search _ => ANY_NAMESPACE

/-- Specialization: `namespace_key` reads nothing from the environ except the server
prefix; this is its specialization to the common deployment with no
`server_prefix` configured, convenient for concrete evaluation. -/
def namespace_key0 (uri : String) : String :=
  let uri_parts := splitSlash uri.data
  if hasInfix "/bags/" uri then
    container_namespace_key ⟨uri_parts.getD 1 []⟩ ⟨uri_parts.getD 2 []⟩ ""
  else if hasInfix "/recipes/" uri then
    if hasInfix "/tiddlers" uri then ANY_NAMESPACE
    else container_namespace_key ⟨uri_parts.getD 1 []⟩ ⟨uri_parts.getD 2 []⟩ ""
  else if hasInfix "/bags" uri then BAGS_NAMESPACE
  else if hasInfix "/recipes" uri then RECIPES_NAMESPACE
  else ANY_NAMESPACE

/-! ## Concrete request scenarios

The environs below replay the repository's own test traffic
(`test/test_web.py`, `test/test_stress.py`): GETs against
`/bags/place/tiddlers/{one,two}` on host `our_test_domain:8001` as the
`GUEST` user, with tiddlyweb's stock `text/html; charset=UTF-8`
serialization. -/

def envOne : Env :=
  { request_method := "GET"
    script_name := ""
    path_info := "/bags/place/tiddlers/one"
    query_string := ""
    if_none_match := none
    username := "GUEST"
    http_host := "our_test_domain:8001"
    server_prefix := ""
    negotiated_mime := some "text/html; charset=UTF-8"
    default_serializer := "text/html"
    serializers := [("text/html", "tiddlyweb.serializations.html", "text/html; charset=UTF-8")]
    fresh_uuid := "NS1" }

def envTwo : Env :=
  { envOne with path_info := "/bags/place/tiddlers/two", fresh_uuid := "NS2" }

/-- The derived cache key for `envOne` (pre-hash; see `Cache`). -/
def keyOne : String :=
  "NS1:text/html:GUEST:our_test_domain:8001:/bags/place/tiddlers/one"

def respOne : Response :=
  ⟨"200 OK", [("Content-Type", "text/html; charset=UTF-8"), ("ETag", "\"e1\"")], "hi"⟩

def respTwo : Response :=
  ⟨"200 OK", [("Content-Type", "text/html; charset=UTF-8"), ("ETag", "\"e2\"")], "hi"⟩

/-- A downstream application answering 404 with an ETag header. -/
def app404 : Env → Response :=
  fun _ => ⟨"404 Not Found", [("ETag", "\"notfound\"")], "missing"⟩

/-- A downstream application for scenarios whose downstream is never
reached or irrelevant. -/
def appPlain : Env → Response :=
  fun _ => respOne

/-- Response for `envOne`: a 200 with a `Cache-Control` header, recorded by
the response half: the backend then holds only the ETag value under
`keyOne`. -/
def respWithCacheControl : Response :=
  ⟨"200 OK", [("ETag", "\"e1\""), ("Cache-Control", "no-cache")], "hi"⟩

def cacheAfter200 : Cache :=
  check_response envOne respWithCacheControl.status respWithCacheControl.headers emptyCache

/-- The follow-up conditional GET for `envOne`. -/
def envOneCond : Env := { envOne with if_none_match := some "\"e1\"" }

/-- Variant of `envOne` where content negotiation failed. -/
def envNoNeg : Env := { envOne with negotiated_mime := none }

/-! ## Helper lemmas: Python `split('/')` and substring facts -/

theorem splitSlash_ne_nil (l : List Char) : splitSlash l ≠ [] := by
  cases l with
  | nil => simp [splitSlash]
  | cons c cs => simp only [splitSlash]; split <;> simp

theorem splitSlash_slash (cs : List Char) : splitSlash ('/' :: cs) = [] :: splitSlash cs := by
  simp [splitSlash]

theorem splitSlash_cons_of_ne (c : Char) (cs : List Char) (h : c ≠ '/') :
    splitSlash (c :: cs) = (c :: (splitSlash cs).headD []) :: (splitSlash cs).tail := by
  simp [splitSlash, h]

theorem splitSlash_no_slash : ∀ l : List Char, '/' ∉ l → splitSlash l = [l] := by
  intro l
  induction l with
  | nil => intro _; rfl
  | cons c cs ih =>
    intro h
    have hc : c ≠ '/' := fun hc => h (hc ▸ List.mem_cons_self c cs)
    have hcs : '/' ∉ cs := fun hm => h (List.mem_cons_of_mem c hm)
    rw [splitSlash_cons_of_ne c cs hc, ih hcs]
    rfl

theorem splitSlash_seg : ∀ w cs : List Char, '/' ∉ w →
    splitSlash (w ++ '/' :: cs) = w :: splitSlash cs := by
  intro w
  induction w with
  | nil => intro cs _; rw [List.nil_append, splitSlash_slash]
  | cons a w' ih =>
    intro cs h
    have ha : a ≠ '/' := fun hc => h (hc ▸ List.mem_cons_self a w')
    have hw' : '/' ∉ w' := fun hm => h (List.mem_cons_of_mem a hm)
    rw [List.cons_append, splitSlash_cons_of_ne a _ ha, ih cs hw']
    rfl

theorem prefix_head_seg : ∀ w u : List Char, '/' ∉ w → w <+: u →
    w <+: (splitSlash u).headD [] := by
  intro w
  induction w with
  | nil => intro u _ _; exact List.nil_prefix
  | cons a w' ih =>
    intro u h hp
    cases u with
    | nil => exact absurd (List.prefix_nil.mp hp) (by simp)
    | cons b u' =>
      rw [List.cons_prefix_cons] at hp
      obtain ⟨rfl, hp'⟩ := hp
      have ha : a ≠ '/' := fun hc => h (hc ▸ List.mem_cons_self a w')
      have hw' : '/' ∉ w' := fun hm => h (List.mem_cons_of_mem a hm)
      rw [splitSlash_cons_of_ne a u' ha]
      simp only [List.headD_cons]
      exact List.cons_prefix_cons.mpr ⟨rfl, ih u' hw' hp'⟩

theorem prefix_slash_head_seg : ∀ w u : List Char, '/' ∉ w → (w ++ ['/']) <+: u →
    (splitSlash u).headD [] = w := by
  intro w
  induction w with
  | nil =>
    intro u _ hp
    cases u with
    | nil => exact absurd (List.prefix_nil.mp hp) (by simp)
    | cons b u' =>
      rw [List.nil_append, List.cons_prefix_cons] at hp
      rw [← hp.1, splitSlash_slash]
      rfl
  | cons a w' ih =>
    intro u h hp
    cases u with
    | nil => exact absurd (List.prefix_nil.mp hp) (by simp)
    | cons b u' =>
      rw [List.cons_append, List.cons_prefix_cons] at hp
      obtain ⟨rfl, hp'⟩ := hp
      have ha : a ≠ '/' := fun hc => h (hc ▸ List.mem_cons_self a w')
      have hw' : '/' ∉ w' := fun hm => h (List.mem_cons_of_mem a hm)
      rw [splitSlash_cons_of_ne a u' ha]
      simp only [List.headD_cons]
      rw [ih u' hw' hp']

theorem infix_slash_sound : ∀ u w : List Char, '/' ∉ w → ('/' :: w) <:+: u →
    ∃ s ∈ (splitSlash u).drop 1, w <+: s := by
  intro u
  induction u with
  | nil =>
    intro w _ hi
    exact absurd (List.infix_nil.mp hi) (by simp)
  | cons c u' ih =>
    intro w hw hi
    rcases List.infix_cons_iff.mp hi with hp | hi'
    · rw [List.cons_prefix_cons] at hp
      obtain ⟨rfl, hp'⟩ := hp
      have hh := prefix_head_seg w u' hw hp'
      rw [splitSlash_slash, List.drop_one, List.tail_cons]
      obtain ⟨h0, t0, he⟩ : ∃ h0 t0, splitSlash u' = h0 :: t0 := by
        cases hsp : splitSlash u' with
        | nil => exact absurd hsp (splitSlash_ne_nil u')
        | cons h0 t0 => exact ⟨h0, t0, rfl⟩
      rw [he] at hh ⊢
      exact ⟨h0, List.mem_cons_self h0 t0, hh⟩
    · obtain ⟨s, hs, hps⟩ := ih w hw hi'
      obtain ⟨h0, t0, he⟩ : ∃ h0 t0, splitSlash u' = h0 :: t0 := by
        cases hsp : splitSlash u' with
        | nil => exact absurd hsp (splitSlash_ne_nil u')
        | cons h0 t0 => exact ⟨h0, t0, rfl⟩
      rw [he, List.drop_one, List.tail_cons] at hs
      by_cases hc : c = '/'
      · subst hc
        rw [splitSlash_slash, List.drop_one, List.tail_cons, he]
        exact ⟨s, List.mem_cons_of_mem h0 hs, hps⟩
      · rw [splitSlash_cons_of_ne c u' hc, he, List.drop_one, List.tail_cons]
        exact ⟨s, hs, hps⟩

theorem infix_wrap_sound : ∀ u w : List Char, '/' ∉ w → ('/' :: (w ++ ['/'])) <:+: u →
    w ∈ (splitSlash u).drop 1 := by
  intro u
  induction u with
  | nil =>
    intro w _ hi
    exact absurd (List.infix_nil.mp hi) (by simp)
  | cons c u' ih =>
    intro w hw hi
    rcases List.infix_cons_iff.mp hi with hp | hi'
    · rw [List.cons_prefix_cons] at hp
      obtain ⟨rfl, hp'⟩ := hp
      have hh := prefix_slash_head_seg w u' hw hp'
      rw [splitSlash_slash, List.drop_one, List.tail_cons]
      obtain ⟨h0, t0, he⟩ : ∃ h0 t0, splitSlash u' = h0 :: t0 := by
        cases hsp : splitSlash u' with
        | nil => exact absurd hsp (splitSlash_ne_nil u')
        | cons h0 t0 => exact ⟨h0, t0, rfl⟩
      rw [he] at hh ⊢
      rw [List.headD_cons] at hh
      rw [hh]
      exact List.mem_cons_self w t0
    · have hmem := ih w hw hi'
      obtain ⟨h0, t0, he⟩ : ∃ h0 t0, splitSlash u' = h0 :: t0 := by
        cases hsp : splitSlash u' with
        | nil => exact absurd hsp (splitSlash_ne_nil u')
        | cons h0 t0 => exact ⟨h0, t0, rfl⟩
      rw [he, List.drop_one, List.tail_cons] at hmem
      by_cases hc : c = '/'
      · subst hc
        rw [splitSlash_slash, List.drop_one, List.tail_cons, he]
        exact List.mem_cons_of_mem h0 hmem
      · rw [splitSlash_cons_of_ne c u' hc, he, List.drop_one, List.tail_cons]
        exact hmem

theorem hasInfix_eq_true {n h : String} (hi : n.data <:+: h.data) : hasInfix n h = true :=
  decide_eq_true hi

theorem hasInfix_eq_false {n h : String} (hi : ¬ n.data <:+: h.data) : hasInfix n h = false :=
  decide_eq_false hi

theorem namespace_key_unprefixed (env : Env) (uri : String) (h : env.server_prefix = "") :
    namespace_key env uri = namespace_key0 uri := by
  simp [namespace_key, namespace_key0, h]

theorem nskey0_item (b t : String) (hb : '/' ∉ b.data) (ht : '/' ∉ t.data) :
    namespace_key0 ("/bags/" ++ b ++ "/tiddlers/" ++ t) = container_namespace_key "bags" b "" := by
  have hdata : ("/bags/" ++ b ++ "/tiddlers/" ++ t : String).data
      = '/' :: ("bags".data ++ '/' :: (b.data ++ '/' :: ("tiddlers".data ++ '/' :: t.data))) := by
    simp only [String.data_append, List.append_assoc]
    rfl
  have hsplit : splitSlash ("/bags/" ++ b ++ "/tiddlers/" ++ t : String).data
      = [[], "bags".data, b.data, "tiddlers".data, t.data] := by
    rw [hdata, splitSlash_slash, splitSlash_seg _ _ (by decide), splitSlash_seg _ _ hb,
      splitSlash_seg _ _ (by decide), splitSlash_no_slash _ ht]
  have hbags : hasInfix "/bags/" ("/bags/" ++ b ++ "/tiddlers/" ++ t) = true := by
    apply hasInfix_eq_true
    rw [hdata]
    exact List.IsPrefix.isInfix ⟨b.data ++ '/' :: ("tiddlers".data ++ '/' :: t.data), rfl⟩
  simp only [namespace_key0, hbags, if_true, hsplit]
  rfl

theorem nskey0_simpleListing (b : String) (hb : '/' ∉ b.data) :
    namespace_key0 ("/bags/" ++ b ++ "/tiddlers") = container_namespace_key "bags" b "" := by
  have hdata : ("/bags/" ++ b ++ "/tiddlers" : String).data
      = '/' :: ("bags".data ++ '/' :: (b.data ++ '/' :: "tiddlers".data)) := by
    simp only [String.data_append, List.append_assoc]
    rfl
  have hsplit : splitSlash ("/bags/" ++ b ++ "/tiddlers" : String).data
      = [[], "bags".data, b.data, "tiddlers".data] := by
    rw [hdata, splitSlash_slash, splitSlash_seg _ _ (by decide), splitSlash_seg _ _ hb,
      splitSlash_no_slash _ (by decide)]
  have hbags : hasInfix "/bags/" ("/bags/" ++ b ++ "/tiddlers") = true := by
    apply hasInfix_eq_true
    rw [hdata]
    exact List.IsPrefix.isInfix ⟨b.data ++ '/' :: "tiddlers".data, rfl⟩
  simp only [namespace_key0, hbags, if_true, hsplit]
  rfl

theorem nskey0_simpleContainer (b : String) (hb : '/' ∉ b.data) :
    namespace_key0 ("/bags/" ++ b) = container_namespace_key "bags" b "" := by
  have hdata : ("/bags/" ++ b : String).data = '/' :: ("bags".data ++ '/' :: b.data) := by
    simp only [String.data_append, List.append_assoc]
    rfl
  have hsplit : splitSlash ("/bags/" ++ b : String).data = [[], "bags".data, b.data] := by
    rw [hdata, splitSlash_slash, splitSlash_seg _ _ (by decide), splitSlash_no_slash _ hb]
  have hbags : hasInfix "/bags/" ("/bags/" ++ b) = true := by
    apply hasInfix_eq_true
    rw [hdata]
    exact List.IsPrefix.isInfix ⟨b.data, rfl⟩
  simp only [namespace_key0, hbags, if_true, hsplit]
  rfl

theorem mem_one {a x : List Char} (h : a ∈ [x]) : a = x := List.mem_singleton.mp h

theorem mem_two {a x y : List Char} (h : a ∈ [x, y]) : a = x ∨ a = y := by
  rcases List.mem_cons.mp h with h1 | h1
  · exact Or.inl h1
  · exact Or.inr (List.mem_singleton.mp h1)

theorem mem_three {a x y z : List Char} (h : a ∈ [x, y, z]) : a = x ∨ a = y ∨ a = z := by
  rcases List.mem_cons.mp h with h1 | h1
  · exact Or.inl h1
  · exact Or.inr (mem_two h1)

theorem nskey0_compositeListing (r : String) (hr : '/' ∉ r.data) (hrb : r ≠ "bags") :
    namespace_key0 ("/recipes/" ++ r ++ "/tiddlers") = ANY_NAMESPACE := by
  have hdata : ("/recipes/" ++ r ++ "/tiddlers" : String).data
      = '/' :: ("recipes".data ++ '/' :: (r.data ++ '/' :: "tiddlers".data)) := by
    simp only [String.data_append, List.append_assoc]
    rfl
  have hsplit : splitSlash ("/recipes/" ++ r ++ "/tiddlers" : String).data
      = [[], "recipes".data, r.data, "tiddlers".data] := by
    rw [hdata, splitSlash_slash, splitSlash_seg _ _ (by decide), splitSlash_seg _ _ hr,
      splitSlash_no_slash _ (by decide)]
  have hnb : hasInfix "/bags/" ("/recipes/" ++ r ++ "/tiddlers") = false := by
    apply hasInfix_eq_false
    intro hinf
    have hmem := infix_wrap_sound _ ("bags".data) (by decide) hinf
    rw [hsplit] at hmem
    have hmem2 : "bags".data ∈ ["recipes".data, r.data, "tiddlers".data] := hmem
    rcases mem_three hmem2 with h | h | h
    · exact absurd h (by decide)
    · exact hrb (String.ext h.symm)
    · exact absurd h (by decide)
  have hrcp : hasInfix "/recipes/" ("/recipes/" ++ r ++ "/tiddlers") = true := by
    apply hasInfix_eq_true
    rw [hdata]
    exact List.IsPrefix.isInfix ⟨r.data ++ '/' :: "tiddlers".data, rfl⟩
  have htid : hasInfix "/tiddlers" ("/recipes/" ++ r ++ "/tiddlers") = true := by
    apply hasInfix_eq_true
    exact List.IsSuffix.isInfix (List.suffix_append _ _)
  simp only [namespace_key0, hnb, hrcp, htid]
  simp

theorem nskey0_compositeContainer (r : String) (hr : '/' ∉ r.data) (hrb : r ≠ "bags")
    (hrt : ¬ ("tiddlers".data <+: r.data)) :
    namespace_key0 ("/recipes/" ++ r) = container_namespace_key "recipes" r "" := by
  have hdata : ("/recipes/" ++ r : String).data = '/' :: ("recipes".data ++ '/' :: r.data) := by
    simp only [String.data_append, List.append_assoc]
    rfl
  have hsplit : splitSlash ("/recipes/" ++ r : String).data = [[], "recipes".data, r.data] := by
    rw [hdata, splitSlash_slash, splitSlash_seg _ _ (by decide), splitSlash_no_slash _ hr]
  have hnb : hasInfix "/bags/" ("/recipes/" ++ r) = false := by
    apply hasInfix_eq_false
    intro hinf
    have hmem := infix_wrap_sound _ ("bags".data) (by decide) hinf
    rw [hsplit] at hmem
    have hmem2 : "bags".data ∈ ["recipes".data, r.data] := hmem
    rcases mem_two hmem2 with h | h
    · exact absurd h (by decide)
    · exact hrb (String.ext h.symm)
  have hrcp : hasInfix "/recipes/" ("/recipes/" ++ r) = true := by
    apply hasInfix_eq_true
    rw [hdata]
    exact List.IsPrefix.isInfix ⟨r.data, rfl⟩
  have hnt : hasInfix "/tiddlers" ("/recipes/" ++ r) = false := by
    apply hasInfix_eq_false
    intro hinf
    obtain ⟨s, hs, hps⟩ := infix_slash_sound _ ("tiddlers".data) (by decide) hinf
    rw [hsplit] at hs
    have hs2 : s ∈ ["recipes".data, r.data] := hs
    rcases mem_two hs2 with h | h
    · subst h
      exact absurd hps (by decide)
    · subst h
      exact hrt hps
  simp only [namespace_key0, hnb, hrcp, hnt, if_true, hsplit]
  rfl

theorem nskey0_allSimple : namespace_key0 "/bags" = BAGS_NAMESPACE := by decide

theorem nskey0_allComposite : namespace_key0 "/recipes" = RECIPES_NAMESPACE := by decide

theorem head_mismatch {l m : List Char} (c d : Char) (h : l = m) (hc : l.headD ' ' = c)
    (hd : m.headD ' ' = d) (hne : c ≠ d) : False := by
  subst h
  rw [hc] at hd
  exact hne hd

theorem nskey0_search (q : String) (hq : '/' ∉ q.data) :
    namespace_key0 ("/search?q=" ++ q) = ANY_NAMESPACE := by
  have hdata : ("/search?q=" ++ q : String).data = '/' :: ("search?q=".data ++ q.data) := by
    simp only [String.data_append]
    rfl
  have hnoslash : '/' ∉ ("search?q=".data ++ q.data) := by
    intro hm
    rcases List.mem_append.mp hm with h | h
    · exact absurd h (by decide)
    · exact hq h
  have hsplit : splitSlash ("/search?q=" ++ q : String).data
      = [[], "search?q=".data ++ q.data] := by
    rw [hdata, splitSlash_slash, splitSlash_no_slash _ hnoslash]
  have hnb : hasInfix "/bags/" ("/search?q=" ++ q) = false := by
    apply hasInfix_eq_false
    intro hinf
    have hmem := infix_wrap_sound _ ("bags".data) (by decide) hinf
    rw [hsplit] at hmem
    exact head_mismatch 'b' 's' (mem_one hmem) rfl rfl (by decide)
  have hnr : hasInfix "/recipes/" ("/search?q=" ++ q) = false := by
    apply hasInfix_eq_false
    intro hinf
    have hmem := infix_wrap_sound _ ("recipes".data) (by decide) hinf
    rw [hsplit] at hmem
    exact head_mismatch 'r' 's' (mem_one hmem) rfl rfl (by decide)
  have hpb : hasInfix "/bags" ("/search?q=" ++ q) = false := by
    apply hasInfix_eq_false
    intro hinf
    obtain ⟨s, hs, hps⟩ := infix_slash_sound _ ("bags".data) (by decide) hinf
    rw [hsplit] at hs
    rcases hps with ⟨tail, htail⟩
    rw [mem_one hs] at htail
    exact head_mismatch 'b' 's' htail rfl rfl (by decide)
  have hpr : hasInfix "/recipes" ("/search?q=" ++ q) = false := by
    apply hasInfix_eq_false
    intro hinf
    obtain ⟨s, hs, hps⟩ := infix_slash_sound _ ("recipes".data) (by decide) hinf
    rw [hsplit] at hs
    rcases hps with ⟨tail, htail⟩
    rw [mem_one hs] at htail
    exact head_mismatch 'r' 's' htail rfl rfl (by decide)
  simp only [namespace_key0, hnb, hnr, hpb, hpr]
  simp

/-! ## Claim theorems -/

theorem foldl_no_etag (env : Env) (hdrs : List (String × String)) (c : Cache)
    (h : ∀ p ∈ hdrs, pyLower p.1 ≠ "etag") :
    hdrs.foldl (fun acc p => if pyLower p.1 = "etag" then cache_put env p.2 acc else acc) c
      = c := by
  induction hdrs generalizing c with
  | nil => rfl
  | cons p ps ih =>
    rw [List.foldl_cons, if_neg (h p (List.mem_cons_self p ps))]
    exact ih c fun q hq => h q (List.mem_cons_of_mem p hq)

/-- C1: the source records each response's status and headers as
`self.status` / `self.headers` on the one shared `EtagCache` instance.
Under the concurrent schedule in which request 2's `start_response` runs
between request 1's `start_response` and request 1's response check, the
response recorder files request 2's ETag `"e2"` under request 1's cache
key, even though request 1's own response carried ETag `"e1"`: the
captured state of one request is overwritten by, and visible to, the
other. -/
theorem C1_shared_capture_leak :
    (run2_interleaved envOne envTwo respOne respTwo emptyCache).store keyOne
      = some "\"e2\"" ∧
    (make_key envOne (get_uri envOne) emptyCache).1 = keyOne ∧
    respOne.headers = [("Content-Type", "text/html; charset=UTF-8"), ("ETag", "\"e1\"")] ∧
    respTwo.headers = [("Content-Type", "text/html; charset=UTF-8"), ("ETag", "\"e2\"")] ∧
    ("\"e2\"" : String) ≠ "\"e1\"" := by
  refine ⟨by decide, by decide, rfl, rfl, by decide⟩

/-- C2 counterexample: a GET whose downstream response is `404 Not Found`
but carries an ETag header is persisted by the response recorder — the
source never consults the captured status — contradicting "persists iff
the status is exactly the primary success code". -/
theorem C2_counterexample_404_stored :
    (etag_call app404 envOne true emptyCache).2.store keyOne = some "\"notfound\"" ∧
    (app404 envOne).status ≠ "200 OK" := by
  refine ⟨by decide, by decide⟩

/-- C2 amended: the response recorder persists iff the request was GET and
the response carries a header named `etag` (case-insensitively); the
captured status is recorded but never consulted, so persistence is
status-independent. -/
theorem C2_amended_stores_iff_get_and_etag :
    ∀ (env : Env) (st st' n v : String) (hdrs : List (String × String)) (c : Cache),
      (env.request_method ≠ "GET" → check_response env st hdrs c = c) ∧
      ((∀ p ∈ hdrs, pyLower p.1 ≠ "etag") → check_response env st hdrs c = c) ∧
      (check_response env st hdrs c = check_response env st' hdrs c) ∧
      (env.request_method = "GET" → pyLower n = "etag" →
        check_response env st [(n, v)] c = cache_put env v c) := by
  intro env st st' n v hdrs c
  refine ⟨?_, ?_, rfl, ?_⟩
  · intro h
    simp [check_response, h]
  · intro h
    by_cases hm : env.request_method = "GET"
    · simp only [check_response, hm, if_true, cacheable]
      exact foldl_no_etag env hdrs c h
    · simp [check_response, hm]
  · intro h1 h2
    simp [check_response, h1, cacheable, h2]

/-- Witness for the C2 amended theorem at the repository's own traffic. -/
theorem C2_amended_witness :
    pyLower "ETag" = "etag" ∧
    check_response envOne "200 OK" [("ETag", "\"e1\"")] emptyCache
      = cache_put envOne "\"e1\"" emptyCache :=
  ⟨by decide,
    (C2_amended_stores_iff_get_and_etag envOne "200 OK" "410 Gone" "ETag" "\"e1\""
      [("ETag", "\"e1\"")] emptyCache).2.2.2 rfl (by decide)⟩

theorem check_cache_spec (env : Env) (c : Cache) (m : String) :
    (check_cache env c).1 = some m ↔
      (env.request_method = "GET" ∧ env.if_none_match = some m ∧ m ≠ "" ∧
       (make_key env (get_uri env) c).2.store (make_key env (get_uri env) c).1 = some m) := by
  by_cases hm : env.request_method = "GET"
  · rcases hinm : env.if_none_match with _ | m'
    · simp [check_cache, hm, hinm, cacheable]
    · by_cases hm' : m' = ""
      · subst hm'
        simp [check_cache, hm, hinm, cacheable]
        intro h
        simp [← h]
      · rcases hmk : make_key env (get_uri env) c with ⟨key, c1⟩
        rcases hcv : c1.store key with _ | ce
        · simp only [check_cache, hm, if_true, cacheable, hinm, ne_eq, hm',
            not_false_iff, if_pos, hmk, Cache.doGet, hcv]
          aesop
        · by_cases hce : ce ≠ "" ∧ ce = m'
          · rcases hce with ⟨hce1, rfl⟩
            simp only [check_cache, hm, if_true, cacheable, hinm, ne_eq, hm',
              not_false_iff, if_pos, hmk, Cache.doGet, hcv]
            simp only [hce1, not_false_iff, and_self, if_true, and_true, true_and]
            aesop
          · simp only [check_cache, hm, if_true, cacheable, hinm, ne_eq, hm',
              not_false_iff, if_pos, hmk, Cache.doGet, hcv]
            rw [if_neg hce]
            aesop
  · simp [check_cache, hm]

theorem check_cache_non_get (env : Env) (c : Cache) (h : env.request_method ≠ "GET") :
    check_cache env c = (none, c) := by
  simp [check_cache, h]

theorem check_cache_no_validator (env : Env) (c : Cache) (h : env.if_none_match = none) :
    check_cache env c = (none, c) := by
  by_cases hm : env.request_method = "GET" <;> simp [check_cache, hm, h, cacheable]

/-- C4: the request interceptor short-circuits, carrying the client's
validator, exactly when the method is GET, a non-empty `If-None-Match`
value is present and the stored validator under the derived key (after
the key derivation's own namespace side effect) equals it; a non-GET
method or an absent client validator passes straight through with the
backend untouched, and a miss passes through as the `none` outcome. -/
theorem C4_intercept_iff_exact_match :
    ∀ (env : Env) (c : Cache) (m : String),
      ((check_cache env c).1 = some m ↔
        (env.request_method = "GET" ∧ env.if_none_match = some m ∧ m ≠ "" ∧
         (make_key env (get_uri env) c).2.store (make_key env (get_uri env) c).1
           = some m)) ∧
      (env.request_method ≠ "GET" → check_cache env c = (none, c)) ∧
      (env.if_none_match = none → check_cache env c = (none, c)) :=
  fun env c m =>
    ⟨check_cache_spec env c m, check_cache_non_get env c, check_cache_no_validator env c⟩

/-- Witness for C4: the stored validator `"e1"` short-circuits the
conditional GET replayed from the test suite, and a PUT with the same
validator passes through untouched. -/
theorem C4_witness :
    (check_cache envOneCond cacheAfter200).1 = some "\"e1\"" ∧
    check_cache { envOneCond with request_method := "PUT" } cacheAfter200
      = (none, cacheAfter200) :=
  ⟨(C4_intercept_iff_exact_match envOneCond cacheAfter200 "\"e1\"").1.mpr
      ⟨rfl, rfl, by decide, by decide⟩,
    (C4_intercept_iff_exact_match { envOneCond with request_method := "PUT" }
      cacheAfter200 "\"e1\"").2.1 (by decide)⟩

/-- C3 counterexample: after the response half records the 200 response
that carried both an ETag and a `Cache-Control` header, the backend holds
only the bare validator string under the derived key, and the short-
circuit on the follow-up conditional GET is `HTTP304("\"e1\"")` — the
stored "validator set" contains no trace of the cache-control pair, so
the original 200's other headers are not re-emitted by this layer. -/
theorem C3_counterexample_304_carries_only_validator :
    (etag_call appPlain envOneCond true cacheAfter200).1
      = Outcome.notModified "\"e1\"" ∧
    cacheAfter200.store keyOne = some "\"e1\"" ∧
    respWithCacheControl.headers = [("ETag", "\"e1\""), ("Cache-Control", "no-cache")] ∧
    hasInfix "no-cache" "\"e1\"" = false := by
  refine ⟨by decide, by decide, rfl, by decide⟩

/-- C3 amended: on a cache hit the middleware short-circuits with a
not-modified outcome carrying exactly the matched validator string (the
client's own `If-None-Match` value); nothing else is stored under the
key, so no further headers exist to re-emit and no `no-transform`
filtering is performed. -/
theorem C3_amended_hit_carries_validator_only :
    ∀ (app : Env → Response) (env : Env) (c : Cache) (m : String),
      (check_cache env c).1 = some m →
      etag_call app env true c = (Outcome.notModified m, (check_cache env c).2) ∧
      env.if_none_match = some m := by
  intro app env c m h
  constructor
  · rcases hcc : check_cache env c with ⟨hit, c1⟩
    rw [hcc] at h
    simp only at h
    subst h
    simp [etag_call, hcc]
  · exact ((check_cache_spec env c m).mp h).2.1

/-- Witness for the C3 amended theorem on the replayed test traffic. -/
theorem C3_amended_witness :
    (check_cache envOneCond cacheAfter200).1 = some "\"e1\"" ∧
    etag_call appPlain envOneCond true cacheAfter200
      = (Outcome.notModified "\"e1\"", (check_cache envOneCond cacheAfter200).2) :=
  ⟨by decide,
    (C3_amended_hit_carries_validator_only appPlain envOneCond cacheAfter200 "\"e1\""
      (by decide)).1⟩

/-- Cancel a common prefix, a `':'` separator and a common suffix at the
`List Char` level. -/
theorem slot_cancel {p t x y : List Char} (h : p ++ ':' :: (x ++ t) = p ++ ':' :: (y ++ t)) :
    x = y := by
  have h1 := List.append_cancel_left h
  injection h1 with _ h2
  exact List.append_cancel_right h2

/-- C5 counterexample: the key components are joined with `':'` before
hashing, so two requests agreeing except that one has host `h:x` with uri
`y` and the other host `h` with uri `x:y` produce the identical joined
key string — and therefore the identical derived key, the external hash
being a function — while their five component tuples differ. -/
theorem C5_counterexample_colon_resegmentation :
    key_string "tok" "text/html" "GUEST" "h:x" "y"
      = key_string "tok" "text/html" "GUEST" "h" "x:y" ∧
    ¬ (("h:x" : String) = "h" ∧ ("y" : String) = "x:y") := by
  refine ⟨by decide, by decide⟩

/-- C5 amended: the derived key is deterministic in the five components,
and changing exactly one component (the others fixed) always changes the
joined key string — hence the derived key whenever the external hash does
not collide on the two strings; but the converse of the claim fails: as
the counterexample shows, tuples differing in more than one component can
re-segment around the `':'` separators and yield the same key. -/
theorem C5_amended_single_slot_injective :
    ∀ n n' m m' u u' h h' r r' : String,
      (n = n' → m = m' → u = u' → h = h' → r = r' →
        key_string n m u h r = key_string n' m' u' h' r') ∧
      (n ≠ n' → key_string n m u h r ≠ key_string n' m u h r) ∧
      (m ≠ m' → key_string n m u h r ≠ key_string n m' u h r) ∧
      (u ≠ u' → key_string n m u h r ≠ key_string n m u' h r) ∧
      (h ≠ h' → key_string n m u h r ≠ key_string n m u h' r) ∧
      (r ≠ r' → key_string n m u h r ≠ key_string n m u h r') := by
  intro n n' m m' u u' h h' r r'
  refine ⟨?_, ?_, ?_, ?_, ?_, ?_⟩
  · intro h1 h2 h3 h4 h5
    rw [h1, h2, h3, h4, h5]
  · intro hne heq
    apply hne
    apply String.ext
    have hd := congrArg String.data heq
    simp only [key_string, String.data_append, List.append_assoc,
      List.cons_append, List.nil_append] at hd
    exact List.append_cancel_right hd
  · intro hne heq
    apply hne
    apply String.ext
    have hd := congrArg String.data heq
    simp only [key_string, String.data_append, List.append_assoc,
      List.cons_append, List.nil_append] at hd
    exact slot_cancel hd
  · intro hne heq
    apply hne
    apply String.ext
    have hd := congrArg String.data heq
    simp only [key_string, String.data_append, List.append_assoc,
      List.cons_append, List.nil_append] at hd
    have h2 := List.append_cancel_left hd
    injection h2 with _ h3
    exact slot_cancel h3
  · intro hne heq
    apply hne
    apply String.ext
    have hd := congrArg String.data heq
    simp only [key_string, String.data_append, List.append_assoc,
      List.cons_append, List.nil_append] at hd
    have h2 := List.append_cancel_left hd
    injection h2 with _ h3
    have h4 := List.append_cancel_left h3
    injection h4 with _ h5
    exact slot_cancel h5
  · intro hne heq
    apply hne
    apply String.ext
    have hd := congrArg String.data heq
    simp only [key_string, String.data_append, List.append_assoc,
      List.cons_append, List.nil_append] at hd
    have h2 := List.append_cancel_left hd
    injection h2 with _ h3
    have h4 := List.append_cancel_left h3
    injection h4 with _ h5
    have h6 := List.append_cancel_left h5
    injection h6 with _ h7
    have h8 := List.append_cancel_left h7
    exact (List.cons.inj h8).2

/-- Witness for the C5 amended theorem: concrete distinct hosts give
distinct keys. -/
theorem C5_amended_witness :
    ("hostA" : String) ≠ "hostB" ∧
    key_string "tok" "text/html" "GUEST" "hostA" "/u"
      ≠ key_string "tok" "text/html" "GUEST" "hostB" "/u" :=
  ⟨by decide,
    (C5_amended_single_slot_injective "tok" "tok" "text/html" "text/html" "GUEST" "GUEST"
      "hostA" "hostB" "/u" "/u").2.2.2.2.1 (by decide)⟩

theorem bag_key_ne_any (bn : String) :
    container_namespace_key "bags" bn "" ≠ ANY_NAMESPACE := by
  intro h
  exact head_mismatch 'b' 'a' (congrArg String.data h) rfl rfl (by decide)

theorem bag_key_ne_bags (bn : String) :
    container_namespace_key "bags" bn "" ≠ BAGS_NAMESPACE := by
  intro h
  have h4 : (container_namespace_key "bags" bn "").data.getD 4 ' '
      = BAGS_NAMESPACE.data.getD 4 ' ' := congrArg (fun s => s.data.getD 4 ' ') h
  have e1 : (container_namespace_key "bags" bn "").data.getD 4 ' ' = ':' := rfl
  have e2 : BAGS_NAMESPACE.data.getD 4 ' ' = '_' := rfl
  rw [e1, e2] at h4
  exact absurd h4 (by decide)

theorem recipe_key_ne_any (rn : String) :
    container_namespace_key "recipes" rn "" ≠ ANY_NAMESPACE := by
  intro h
  exact head_mismatch 'r' 'a' (congrArg String.data h) rfl rfl (by decide)

theorem recipe_key_ne_recipes (rn : String) :
    container_namespace_key "recipes" rn "" ≠ RECIPES_NAMESPACE := by
  intro h
  have h7 : (container_namespace_key "recipes" rn "").data.getD 7 ' '
      = RECIPES_NAMESPACE.data.getD 7 ' ' := congrArg (fun s => s.data.getD 7 ' ') h
  have e1 : (container_namespace_key "recipes" rn "").data.getD 7 ' ' = ':' := rfl
  have e2 : RECIPES_NAMESPACE.data.getD 7 ' ' = '_' := rfl
  rw [e1, e2] at h7
  exact absurd h7 (by decide)

/-- C7: each invalidation hook overwrites exactly its specified namespace
tokens with the fresh values drawn for the mutation — an item (tiddler)
change bumps container-instance(C) and any; a simple container (bag)
change bumps container-instance(C), the simple-container class token and
any; a composite container (recipe) change bumps container-instance(C),
the composite-container class token and any — and leaves every other
backend entry unchanged. -/
theorem C7_hooks_regenerate_exact_scopes :
    ∀ (c : Cache) (bn rn u1 u2 v1 v2 v3 w1 w2 w3 : String),
      ((tiddler_change_hook c bn u1 u2).store ANY_NAMESPACE = some u1 ∧
       (tiddler_change_hook c bn u1 u2).store (container_namespace_key "bags" bn "")
         = some u2 ∧
       (∀ k, k ≠ ANY_NAMESPACE → k ≠ container_namespace_key "bags" bn "" →
         (tiddler_change_hook c bn u1 u2).store k = c.store k)) ∧
      ((bag_change_hook c bn v1 v2 v3).store ANY_NAMESPACE = some v1 ∧
       (bag_change_hook c bn v1 v2 v3).store (container_namespace_key "bags" bn "")
         = some v2 ∧
       (bag_change_hook c bn v1 v2 v3).store BAGS_NAMESPACE = some v3 ∧
       (∀ k, k ≠ ANY_NAMESPACE → k ≠ container_namespace_key "bags" bn "" →
         k ≠ BAGS_NAMESPACE → (bag_change_hook c bn v1 v2 v3).store k = c.store k)) ∧
      ((recipe_change_hook c rn w1 w2 w3).store ANY_NAMESPACE = some w1 ∧
       (recipe_change_hook c rn w1 w2 w3).store (container_namespace_key "recipes" rn "")
         = some w2 ∧
       (recipe_change_hook c rn w1 w2 w3).store RECIPES_NAMESPACE = some w3 ∧
       (∀ k, k ≠ ANY_NAMESPACE → k ≠ container_namespace_key "recipes" rn "" →
         k ≠ RECIPES_NAMESPACE → (recipe_change_hook c rn w1 w2 w3).store k = c.store k)) := by
  intro c bn rn u1 u2 v1 v2 v3 w1 w2 w3
  refine ⟨⟨?_, ?_, ?_⟩, ⟨?_, ?_, ?_, ?_⟩, ⟨?_, ?_, ?_, ?_⟩⟩
  · simp [tiddler_change_hook, Cache.doSet, (bag_key_ne_any bn).symm]
  · simp [tiddler_change_hook, Cache.doSet]
  · intro k hk1 hk2
    simp [tiddler_change_hook, Cache.doSet, hk1, hk2]
  · simp [bag_change_hook, Cache.doSet, (bag_key_ne_any bn).symm,
      (show ANY_NAMESPACE ≠ BAGS_NAMESPACE by decide)]
  · simp [bag_change_hook, Cache.doSet, bag_key_ne_bags bn]
  · simp [bag_change_hook, Cache.doSet]
  · intro k hk1 hk2 hk3
    simp [bag_change_hook, Cache.doSet, hk1, hk2, hk3]
  · simp [recipe_change_hook, Cache.doSet, (recipe_key_ne_any rn).symm,
      (show ANY_NAMESPACE ≠ RECIPES_NAMESPACE by decide)]
  · simp [recipe_change_hook, Cache.doSet, recipe_key_ne_recipes rn]
  · simp [recipe_change_hook, Cache.doSet]
  · intro k hk1 hk2 hk3
    simp [recipe_change_hook, Cache.doSet, hk1, hk2, hk3]

/-- Witness for C7 on the test suite's `place` bag: the hook rewrites the
two affected tokens and leaves an unrelated bag's token alone. -/
theorem C7_witness :
    (tiddler_change_hook emptyCache "place" "t1" "t2").store ANY_NAMESPACE = some "t1" ∧
    (tiddler_change_hook emptyCache "place" "t1" "t2").store "bags:place:_namespace"
      = some "t2" ∧
    (tiddler_change_hook emptyCache "place" "t1" "t2").store "bags:other:_namespace"
      = none := by
  have h := C7_hooks_regenerate_exact_scopes emptyCache "place" "plaice"
    "t1" "t2" "v1" "v2" "v3" "w1" "w2" "w3"
  refine ⟨h.1.1, ?_, ?_⟩
  · have h2 := h.1.2.1
    exact h2
  · have h3 := h.1.2.2 "bags:other:_namespace" (by decide) (by decide)
    rw [h3]
    rfl

/-- C8: with no reachable cache backend (`_mc` falsy), one request is a
pure pass-through: the downstream application is invoked and its response
returned unmodified, no error is raised (the middleware is total), and
the backend state — including its operation log — is untouched: no
lookup, store or namespace operation happens. -/
theorem C8_no_backend_pure_passthrough :
    ∀ (app : Env → Response) (env : Env) (c : Cache),
      etag_call app env false c = (Outcome.response (app env), c) := by
  intro app env c
  rfl

/-- C9: when content negotiation fails (`get_serialize_type` raising
`HTTP415`, or yielding nothing a mime string can be read from), the key
builder falls back to the configured default serializer's mime type, so
key derivation succeeds. -/
theorem C9_negotiation_failure_falls_back :
    ∀ (env : Env) (modpath mime : String),
      env.serializers.lookup env.default_serializer = some (modpath, mime) →
      env.negotiated_mime = none →
      resolve_mime env = mime := by
  intro env modpath mime h1 h2
  simp [resolve_mime, h2, h1]

/-- Witness for C9: the stock tiddlyweb config falls back to
`text/html; charset=UTF-8`. -/
theorem C9_witness :
    envNoNeg.serializers.lookup envNoNeg.default_serializer
      = some ("tiddlyweb.serializations.html", "text/html; charset=UTF-8") ∧
    resolve_mime envNoNeg = "text/html; charset=UTF-8" :=
  ⟨by decide,
    C9_negotiation_failure_falls_back envNoNeg "tiddlyweb.serializations.html"
      "text/html; charset=UTF-8" (by decide) rfl⟩

/-- C10: namespace resolution never returns an empty token: a missing or
empty stored token is replaced by the fresh random token, which is
persisted under the namespace key and returned; a non-empty stored token
is returned as is. -/
theorem C10_namespace_token_nonempty :
    ∀ (env : Env) (uri : String) (c : Cache),
      env.fresh_uuid ≠ "" →
      ((get_namespace env uri c).1 ≠ "" ∧
       ((c.store (namespace_key env uri) = none ∨
         c.store (namespace_key env uri) = some "") →
         (get_namespace env uri c).1 = env.fresh_uuid ∧
         (get_namespace env uri c).2.store (namespace_key env uri)
           = some env.fresh_uuid) ∧
       (∀ v, v ≠ "" → c.store (namespace_key env uri) = some v →
         (get_namespace env uri c).1 = v ∧
         (get_namespace env uri c).2.store (namespace_key env uri) = some v)) := by
  intro env uri c hf
  rcases hcv : c.store (namespace_key env uri) with _ | v
  · simp [get_namespace, Cache.doGet, Cache.doSet, hcv, hf]
  · by_cases hv : v = ""
    · subst hv
      simp [get_namespace, Cache.doGet, Cache.doSet, hcv, hf]
      exact fun v hv hv2 => absurd hv2.symm hv
    · simp [get_namespace, Cache.doGet, Cache.doSet, hcv, hv]

/-- Witness for C10: the first resolution against an empty backend
creates and persists `envOne`'s fresh token. -/
theorem C10_witness :
    ("NS1" : String) ≠ "" ∧
    (get_namespace envOne "/bags/place" emptyCache).1 = "NS1" ∧
    (get_namespace envOne "/bags/place" emptyCache).2.store
      (namespace_key envOne "/bags/place") = some "NS1" :=
  have h := C10_namespace_token_nonempty envOne "/bags/place" emptyCache (by decide)
  ⟨by decide, (h.2.1 (Or.inl rfl)).1, (h.2.1 (Or.inl rfl)).2⟩

/-- C6 counterexample: the path of a specific named simple container,
`/bags/place`, falls under none of the claim's six rules except its
"every other path → any scope" catch-all, yet the code classifies it
under the container-instance scope `bags:place:_namespace` (the first
branch fires for every uri containing `/bags/`). -/
theorem C6_counterexample_simple_container_scope :
    (UriShape.simpleContainer "place").render = "/bags/place" ∧
    namespace_key envOne "/bags/place" = container_namespace_key "bags" "place" "" ∧
    claim_scope_key (UriShape.simpleContainer "place") = ANY_NAMESPACE ∧
    container_namespace_key "bags" "place" "" ≠ ANY_NAMESPACE := by
  refine ⟨rfl, by decide, rfl, by decide⟩

/-- C6 amended: the claim's rule list holds once extended with "any path
under a named simple container — the container itself and its item
listing included — maps to that container's instance scope", as
`amended_scope_key` records.  The name hygiene hypotheses exclude
segment names that collide with the source's substring tests (a
slash inside a name, a recipe literally named `bags`, a recipe name
starting with `tiddlers`). -/
theorem C6_amended_scope_classification :
    ∀ (env : Env) (b t r q : String),
      env.server_prefix = "" →
      '/' ∉ b.data → '/' ∉ t.data → '/' ∉ r.data →
      r ≠ "bags" → ¬ ("tiddlers".data <+: r.data) → '/' ∉ q.data →
      (namespace_key env (UriShape.itemInSimple b t).render
        = amended_scope_key (UriShape.itemInSimple b t)) ∧
      (namespace_key env (UriShape.simpleListing b).render
        = amended_scope_key (UriShape.simpleListing b)) ∧
      (namespace_key env (UriShape.simpleContainer b).render
        = amended_scope_key (UriShape.simpleContainer b)) ∧
      (namespace_key env (UriShape.compositeListing r).render
        = amended_scope_key (UriShape.compositeListing r)) ∧
      (namespace_key env (UriShape.compositeContainer r).render
        = amended_scope_key (UriShape.compositeContainer r)) ∧
      (namespace_key env UriShape.allSimple.render
        = amended_scope_key UriShape.allSimple) ∧
      (namespace_key env UriShape.allComposite.render
        = amended_scope_key UriShape.allComposite) ∧
      (namespace_key env (UriShape.search q).render
        = amended_scope_key (UriShape.search q)) := by
  intro env b t r q hpfx hb ht hr hrb hrt hq
  refine ⟨?_, ?_, ?_, ?_, ?_, ?_, ?_, ?_⟩
  · rw [namespace_key_unprefixed env _ hpfx]
    exact nskey0_item b t hb ht
  · rw [namespace_key_unprefixed env _ hpfx]
    exact nskey0_simpleListing b hb
  · rw [namespace_key_unprefixed env _ hpfx]
    exact nskey0_simpleContainer b hb
  · rw [namespace_key_unprefixed env _ hpfx]
    exact nskey0_compositeListing r hr hrb
  · rw [namespace_key_unprefixed env _ hpfx]
    exact nskey0_compositeContainer r hr hrb hrt
  · rw [namespace_key_unprefixed env _ hpfx]
    exact nskey0_allSimple
  · rw [namespace_key_unprefixed env _ hpfx]
    exact nskey0_allComposite
  · rw [namespace_key_unprefixed env _ hpfx]
    exact nskey0_search q hq

/-- Witness for the C6 amended theorem on the test suite's names. -/
theorem C6_amended_witness :
    ('/' ∉ ("place" : String).data) ∧ (("plaice" : String) ≠ "bags") ∧
    namespace_key envOne (UriShape.simpleContainer "place").render
      = container_namespace_key "bags" "place" "" ∧
    namespace_key envOne (UriShape.compositeListing "plaice").render = ANY_NAMESPACE ∧
    namespace_key envOne (UriShape.compositeContainer "plaice").render
      = container_namespace_key "recipes" "plaice" "" :=
  have h := C6_amended_scope_classification envOne "place" "one" "plaice" "two" rfl
    (by decide) (by decide) (by decide) (by decide) (by decide) (by decide)
  ⟨by decide, by decide, h.2.2.1, h.2.2.2.1, h.2.2.2.2.1⟩

end Etag
